import Mathlib

/- Verification of the BillGuard structured-analysis and risk-scoring engine
   (src/app.py).  The Python code is shallowly embedded: Python floats are
   modelled as exact rationals, Python ints as integers, Python strings as
   Lean strings.  Each regular-expression search of the source is modelled by
   an equivalent character-level scanner (leftmost match, greedy repetition),
   documented at the corresponding definition. -/

namespace BillGuard

/-! ### Basic string operations (Python str methods) -/

/-- Python str.lower (ASCII letters; the engine only compares ASCII text). -/
def lowerStr (s : String) : String := String.mk (s.toList.map Char.toLower)

/-- Python str.upper (ASCII letters). -/
def upperStr (s : String) : String := String.mk (s.toList.map Char.toUpper)

/-- Trim characters satisfying a predicate from both ends of a list. -/
def stripChars (p : Char → Bool) (l : List Char) : List Char :=
  ((l.dropWhile p).reverse.dropWhile p).reverse

/-- Python str.strip(): trim whitespace from both ends. -/
def strip (s : String) : String := String.mk (stripChars Char.isWhitespace s.toList)

/-- Python str.rstrip(":"): drop every trailing colon. -/
def rstripColons (s : String) : String :=
  String.mk ((s.toList.reverse.dropWhile (fun c => c == ':')).reverse)

/-- Python str.strip(" -"): trim spaces and hyphens from both ends. -/
def stripDashSpace (s : String) : String :=
  String.mk (stripChars (fun c => c == ' ' || c == '-') s.toList)

/-- Does the first list start with the second one? -/
def startsWithL : List Char → List Char → Bool
  | _, [] => true
  | [], _ :: _ => false
  | c :: cs, p :: ps => c == p && startsWithL cs ps

/-- Is the second list a contiguous sublist of the first?  (Python `pat in s`.) -/
def containsSubstr : List Char → List Char → Bool
  | [], pat => pat.isEmpty
  | c :: rest, pat => startsWithL (c :: rest) pat || containsSubstr rest pat

/-- Python `pat in s` on strings. -/
def isSubstr (pat s : String) : Bool := containsSubstr s.toList pat.toList

/-- The first suffix of the list that starts with the pattern: models
    Python `s.find(pat)` followed by slicing `s[idx:]` when the pattern occurs. -/
def suffixFrom : List Char → List Char → Option (List Char)
  | [], pat => if pat.isEmpty then some [] else none
  | c :: rest, pat =>
    if startsWithL (c :: rest) pat then some (c :: rest) else suffixFrom rest pat

/-- Case-insensitive match of a literal pattern at the head of the text,
    returning the remaining text on success (ASCII case folding, as used by
    the source's re.IGNORECASE patterns which are all ASCII). -/
def dropCI : List Char → List Char → Option (List Char)
  | [], l => some l
  | _ :: _, [] => none
  | p :: ps, c :: cs => if c.toLower == p.toLower then dropCI ps cs else none

/-- Worker for `splitlines`: accumulates the current line (reversed). -/
def splitlinesGo : List Char → List Char → List String
  | acc, [] => [String.mk acc.reverse]
  | acc, '\r' :: '\n' :: rest =>
    String.mk acc.reverse :: (if rest.isEmpty then [] else splitlinesGo [] rest)
  | acc, '\r' :: rest =>
    String.mk acc.reverse :: (if rest.isEmpty then [] else splitlinesGo [] rest)
  | acc, '\n' :: rest =>
    String.mk acc.reverse :: (if rest.isEmpty then [] else splitlinesGo [] rest)
  | acc, c :: rest => splitlinesGo (c :: acc) rest

/-- Python str.splitlines(): split at line boundaries (modelled for the
    common `\n`, `\r`, `\r\n` boundaries), no trailing empty line, and the
    empty string yields no lines. -/
def splitlines (s : String) : List String :=
  if s.toList.isEmpty then [] else splitlinesGo [] s.toList

/-! ### Money extractor (src/app.py `extract_money`) -/

def isDigitOrComma (c : Char) : Bool := c.isDigit || c == ','

/-- The optional decimal part `(?:\.\d{1,2})?` of the money pattern:
    greedy, so two fractional digits are taken when available, else one,
    else the decimal part is absent. -/
def decPart : List Char → List Char
  | '.' :: d1 :: d2 :: _ =>
    if d1.isDigit then (if d2.isDigit then ['.', d1, d2] else ['.', d1]) else []
  | ['.', d1] => if d1.isDigit then ['.', d1] else []
  | _ => []

/-- Group 1 of the first match of `\$?\s*([\d,]+(?:\.\d{1,2})?)`.
    Since the `\$?\s*` prefix is entirely optional, the regex matches exactly
    when the string has a digit-or-comma character, and group 1 always starts
    at the first such character, extends through the maximal `[\d,]` run, and
    greedily takes an optional `.d` or `.dd` tail. -/
def moneyGroup : List Char → Option (List Char)
  | [] => none
  | c :: rest =>
    if isDigitOrComma c then
      some ((c :: rest.takeWhile isDigitOrComma) ++ decPart (rest.dropWhile isDigitOrComma))
    else moneyGroup rest

/-- Numeric value of a list of decimal digit characters. -/
def natOfDigits (l : List Char) : ℕ := l.foldl (fun n c => 10 * n + (c.toNat - 48)) 0

/-- Python float() applied to the comma-stripped group: the group consists of
    digits, optionally followed by a dot and one or two digits (the digit part
    before the dot may have become empty after comma removal).  float("")
    raises ValueError, modelled as `none`. -/
def parseCleaned (cleaned : List Char) : Option ℚ :=
  if cleaned.isEmpty then none
  else
    let intPart := cleaned.takeWhile (fun c => c != '.')
    match cleaned.dropWhile (fun c => c != '.') with
    | [] => some ((natOfDigits intPart : ℚ))
    | _ :: frac => some ((natOfDigits intPart : ℚ) + (natOfDigits frac : ℚ) / (10 : ℚ) ^ frac.length)

/-- src/app.py `extract_money`: first money-shaped run of the text, with
    thousands separators removed, parsed as a number; `0` on absence or
    parse failure. -/
def extract_money (value : String) : ℚ :=
  if value = "" then 0
  else
    match moneyGroup value.toList with
    | none => 0
    | some g => (parseCleaned (g.filter (fun c => c != ','))).getD 0

/-! ### Bill-text totals (src/app.py `parse_bill_input`) -/

/-- The dict returned by `parse_bill_input`, with its three fixed keys. -/
structure BillTotals where
  total_billed : ℚ
  insurance_paid : ℚ
  patient_responsibility : ℚ
deriving DecidableEq

/-- One iteration of the `parse_bill_input` loop. -/
def billUpdate (totals : BillTotals) (line : String) : BillTotals :=
  if isSubstr "total billed" (lowerStr line) then
    { totals with total_billed := extract_money line }
  else if isSubstr "insurance paid" (lowerStr line) then
    { totals with insurance_paid := extract_money line }
  else if isSubstr "patient responsibility" (lowerStr line)
          || isSubstr "patient owes" (lowerStr line) then
    { totals with patient_responsibility := extract_money line }
  else totals

/-- src/app.py `parse_bill_input`. -/
def parse_bill_input (raw_text : String) : BillTotals :=
  (splitlines raw_text).foldl billUpdate ⟨0, 0, 0⟩

/-! ### Local heuristic risk estimator (src/app.py `estimate_local_risk`) -/

/-- Group 1 of the first match of `facility fee:\s*\$?([\d,]+)` (the text is
    already lower-cased by the caller, so the case-insensitive flag of the
    source pattern is inert).  The match requires the literal label, then
    optional whitespace, an optional dollar sign, and a nonempty digit-or-comma
    run; if the run is missing the scan resumes at the next character. -/
def facilityGroup : List Char → Option (List Char)
  | [] => none
  | c :: rest =>
    if startsWithL (c :: rest) ("facility fee:".toList) then
      let after := ((c :: rest).drop ("facility fee:".toList.length)).dropWhile Char.isWhitespace
      let digitsStart := match after with
        | '$' :: r2 => r2
        | _ => after
      let run := digitsStart.takeWhile isDigitOrComma
      if run.isEmpty then facilityGroup rest else some run
    else facilityGroup rest

def dupFlag : String := "Possible duplicate lab panel charge detected."
def feeFlag : String := "Facility fee appears unusually high for the listed visit context."
def auditFlag : String := "Overall bill size is high enough to justify a manual audit."

/-- src/app.py `estimate_local_risk`: three ordered checks, each optionally
    adding a dollar estimate and a flag string.  The Python literal `0.2` is
    modelled as the rational 1/5 (on the amounts compared here the IEEE and
    rational computations agree). -/
def estimate_local_risk (raw_text : String) : ℚ × List String :=
  let text := lowerStr raw_text
  let st0 : ℚ × List String := (0, [])
  let st1 :=
    if isSubstr "lab panel" text && (isSubstr "x2" text || isSubstr "×2" text) then
      (st0.1 + 650, st0.2 ++ [dupFlag])
    else st0
  let st2 :=
    match facilityGroup text.toList with
    | some g =>
      let facility_fee := extract_money (String.mk g)
      if facility_fee ≥ 1500 then
        (st1.1 + min 400 (facility_fee * (1/5 : ℚ)), st1.2 ++ [feeFlag])
      else st1
    | none => st1
  let billed := (parse_bill_input raw_text).total_billed
  if billed ≥ 3500 then (st2.1 + 150, st2.2 ++ [auditFlag]) else st2

/-! ### Section segmenter (src/app.py `parse_structured_sections`) -/

/-- The eight fixed section names (the keys of the `sections` dict). -/
inductive SName where
  | SUMMARY | ITEMIZED | INSURANCE | FLAGS | GUIDANCE
  | ACTION_PLAN | DISPUTE_LETTER | PHONE_SCRIPT
deriving DecidableEq

/-- The `sections` dict: a mapping with exactly the eight fixed keys. -/
structure SectionSet where
  SUMMARY : List String
  ITEMIZED : List String
  INSURANCE : List String
  FLAGS : List String
  GUIDANCE : List String
  ACTION_PLAN : List String
  DISPUTE_LETTER : List String
  PHONE_SCRIPT : List String
deriving DecidableEq

def emptySections : SectionSet := ⟨[], [], [], [], [], [], [], []⟩

/-- Python `upper in sections`: recognize one of the eight key strings. -/
def toSName : String → Option SName
  | "SUMMARY" => some .SUMMARY
  | "ITEMIZED" => some .ITEMIZED
  | "INSURANCE" => some .INSURANCE
  | "FLAGS" => some .FLAGS
  | "GUIDANCE" => some .GUIDANCE
  | "ACTION_PLAN" => some .ACTION_PLAN
  | "DISPUTE_LETTER" => some .DISPUTE_LETTER
  | "PHONE_SCRIPT" => some .PHONE_SCRIPT
  | _ => none

def SectionSet.get (s : SectionSet) : SName → List String
  | .SUMMARY => s.SUMMARY
  | .ITEMIZED => s.ITEMIZED
  | .INSURANCE => s.INSURANCE
  | .FLAGS => s.FLAGS
  | .GUIDANCE => s.GUIDANCE
  | .ACTION_PLAN => s.ACTION_PLAN
  | .DISPUTE_LETTER => s.DISPUTE_LETTER
  | .PHONE_SCRIPT => s.PHONE_SCRIPT

/-- Python `sections[current].append(stripped)`. -/
def SectionSet.appendTo (s : SectionSet) (n : SName) (line : String) : SectionSet :=
  match n with
  | .SUMMARY => { s with SUMMARY := s.SUMMARY ++ [line] }
  | .ITEMIZED => { s with ITEMIZED := s.ITEMIZED ++ [line] }
  | .INSURANCE => { s with INSURANCE := s.INSURANCE ++ [line] }
  | .FLAGS => { s with FLAGS := s.FLAGS ++ [line] }
  | .GUIDANCE => { s with GUIDANCE := s.GUIDANCE ++ [line] }
  | .ACTION_PLAN => { s with ACTION_PLAN := s.ACTION_PLAN ++ [line] }
  | .DISPUTE_LETTER => { s with DISPUTE_LETTER := s.DISPUTE_LETTER ++ [line] }
  | .PHONE_SCRIPT => { s with PHONE_SCRIPT := s.PHONE_SCRIPT ++ [line] }

/-- The key strings of the dict, in their fixed insertion order. -/
def sectionNames : List String :=
  ["SUMMARY", "ITEMIZED", "INSURANCE", "FLAGS", "GUIDANCE",
   "ACTION_PLAN", "DISPUTE_LETTER", "PHONE_SCRIPT"]

/-- The dict viewed as an association list (key order is the fixed insertion
    order of the source's dict literal). -/
def SectionSet.lineLists (s : SectionSet) : List (String × List String) :=
  [("SUMMARY", s.SUMMARY), ("ITEMIZED", s.ITEMIZED), ("INSURANCE", s.INSURANCE),
   ("FLAGS", s.FLAGS), ("GUIDANCE", s.GUIDANCE), ("ACTION_PLAN", s.ACTION_PLAN),
   ("DISPUTE_LETTER", s.DISPUTE_LETTER), ("PHONE_SCRIPT", s.PHONE_SCRIPT)]

/-- The loop of `parse_structured_sections`: `strip line` is the source's
    `stripped`, and `toSName (upperStr (rstripColons (strip line)))` is the
    source's test `stripped.rstrip(":").upper() in sections`. -/
def segGo : List String → Option SName → SectionSet → SectionSet
  | [], _, acc => acc
  | line :: rest, current, acc =>
    match toSName (upperStr (rstripColons (strip line))) with
    | some n => segGo rest (some n) acc
    | none =>
      match current with
      | some n =>
        if strip line = "" then segGo rest current acc
        else segGo rest current (acc.appendTo n (strip line))
      | none => segGo rest current acc

/-- src/app.py `parse_structured_sections`. -/
def parse_structured_sections (raw_output : String) : SectionSet :=
  segGo (splitlines raw_output) none emptySections

/-- Modelled from the spec (for the refinement statement of the segmenter):
    tag each non-heading line with the current section cursor; a heading line
    only moves the cursor and is itself dropped. -/
def annotate : Option SName → List String → List (Option SName × String)
  | _, [] => []
  | cur, line :: rest =>
    match toSName (upperStr (rstripColons (strip line))) with
    | some n => annotate (some n) rest
    | none => (cur, strip line) :: annotate cur rest

/-- Modelled from the spec: a section's content is the ordered sequence of
    stripped non-blank lines tagged with that section's cursor; lines tagged
    with no cursor (before the first heading) are dropped. -/
def specContent (n : SName) (lines : List String) : List String :=
  (annotate none lines).filterMap
    (fun p => if p.1 = some n ∧ p.2 ≠ "" then some p.2 else none)

/-! ### Itemized row parser (src/app.py `parse_itemized_lines`) -/

/-- Python `re.sub(r"^[-*]\s*", "", line)`: drop one leading bullet character
    and the whitespace following it. -/
def stripBullet (s : String) : String :=
  match s.toList with
  | c :: rest =>
    if c == '-' || c == '*' then String.mk (rest.dropWhile Char.isWhitespace) else s
  | [] => s

/-- Worker for Python str.split("|"); the accumulator holds the current
    field (reversed). -/
def splitPipeAux : List Char → List Char → List String
  | acc, [] => [String.mk acc.reverse]
  | acc, c :: rest =>
    if c == '|' then String.mk acc.reverse :: splitPipeAux [] rest
    else splitPipeAux (c :: acc) rest

/-- Python `clean.split("|")`: split at every pipe, keeping empty fields. -/
def splitPipe (s : String) : List String := splitPipeAux [] s.toList

/-- The per-line body of the `parse_itemized_lines` loop. -/
def itemRow (line : String) : String × String × String :=
  let clean := stripBullet line
  let parts := (splitPipe clean).map strip
  if parts.length ≥ 3 then (parts.getD 0 "", parts.getD 1 "", parts.getD 2 "")
  else ("Charge", "See note", clean)

/-- src/app.py `parse_itemized_lines`. -/
def parse_itemized_lines : List String → List (String × String × String)
  | [] => []
  | line :: rest => itemRow line :: parse_itemized_lines rest

/-! ### Narrative financial metrics (src/app.py `find_money_in_lines`) -/

/-- The dict returned by `find_money_in_lines`, with its four fixed keys. -/
structure FinMetrics where
  total_billed : ℚ
  insurance_paid : ℚ
  patient_owes : ℚ
  potential_savings : ℚ
deriving DecidableEq

/-- One iteration of the `find_money_in_lines` loop. -/
def metricsUpdate (metrics : FinMetrics) (line : String) : FinMetrics :=
  if isSubstr "total billed" (lowerStr line) then
    { metrics with total_billed := extract_money line }
  else if isSubstr "insurance paid" (lowerStr line) then
    { metrics with insurance_paid := extract_money line }
  else if isSubstr "patient owes" (lowerStr line) then
    { metrics with patient_owes := extract_money line }
  else if isSubstr "potential overcharge" (lowerStr line)
          || isSubstr "savings opportunity" (lowerStr line) then
    { metrics with potential_savings := extract_money line }
  else metrics

/-- src/app.py `find_money_in_lines`. -/
def find_money_in_lines (lines : List String) : FinMetrics :=
  lines.foldl metricsUpdate ⟨0, 0, 0, 0⟩

/-! ### Risk score calculator (src/app.py `compute_risk_score`) -/

/-- Points contributed by one FLAGS line, by severity keyword. -/
def severityPoints (flag : String) : ℤ :=
  let lower := lowerStr flag
  if isSubstr "critical" lower then 22
  else if isSubstr "important" lower || isSubstr "significant" lower then 14
  else if isSubstr "moderate" lower then 8
  else if isSubstr "low" lower || isSubstr "worth asking" lower then 4
  else 6

/-- The `for flag in sections["FLAGS"]` accumulation. -/
def severity_component (flags : List String) : ℤ := (flags.map severityPoints).sum

/-- `score += min(len(local_flags) * 8, 16)`. -/
def local_flag_component (local_flags : List String) : ℤ :=
  min ((local_flags.length : ℤ) * 8) 16

/-- `+8` when any flag mentions "duplicate". -/
def duplicate_component (all_flags : List String) : ℤ :=
  if all_flags.any (fun f => isSubstr "duplicate" (lowerStr f)) then 8 else 0

/-- `+6` when any flag mentions "balance bill" or "denied". -/
def denial_component (all_flags : List String) : ℤ :=
  if all_flags.any (fun f => isSubstr "balance bill" (lowerStr f)
                    || isSubstr "denied" (lowerStr f)) then 6 else 0

/-- Group 1 of the first match of `\$\s*([\d,]+)`: a dollar sign, optional
    whitespace, then a nonempty digit-or-comma run; if the run is missing the
    scan resumes at the next character. -/
def dollarGroup : List Char → Option (List Char)
  | [] => none
  | c :: rest =>
    if c == '$' then
      let run := (rest.dropWhile Char.isWhitespace).takeWhile isDigitOrComma
      if run.isEmpty then dollarGroup rest else some run
    else dollarGroup rest

/-- The INSURANCE savings step: join the section with spaces, lower-case it,
    find the first occurrence of "potential", search `\$\s*([\d,]+)` from
    there, and grade the extracted amount. -/
def savings_component (insurance : List String) : ℤ :=
  let insurance_text := lowerStr (String.intercalate " " insurance)
  match suffixFrom insurance_text.toList ("potential".toList) with
  | none => 0
  | some suffix =>
    match dollarGroup suffix with
    | none => 0
    | some g =>
      let savings := extract_money (String.mk g)
      if savings > 1000 then 15 else if savings > 250 then 8
      else if savings > 0 then 3 else 0

/-- `-12` when the joined lower-cased SUMMARY text contains a reassuring phrase. -/
def summary_component (summary : List String) : ℤ :=
  let summary_text := lowerStr (String.intercalate " " summary)
  if isSubstr "mostly clean" summary_text || isSubstr "mostly reasonable" summary_text
  then -12 else 0

/-- The running total of `compute_risk_score` before the final clamp: the
    source accumulates these addends in sequence with `score +=`. -/
def compute_risk_raw (sections : SectionSet) (local_flags : List String) : ℤ :=
  severity_component sections.FLAGS
  + local_flag_component local_flags
  + duplicate_component (sections.FLAGS ++ local_flags)
  + denial_component (sections.FLAGS ++ local_flags)
  + savings_component sections.INSURANCE
  + summary_component sections.SUMMARY

/-- src/app.py `compute_risk_score`: `max(5, min(score, 95))`. -/
def compute_risk_score (sections : SectionSet) (local_flags : List String) : ℤ :=
  max 5 (min (compute_risk_raw sections local_flags) 95)

/-! ### Flag classifier and summarizer (src/app.py `flag_severity`,
    `summarize_flag`) -/

def severityLabels : List String :=
  ["critical", "important", "significant", "moderate", "low", "worth asking"]

/-- The `for label in [...]` loop of `flag_severity`. -/
def sevGo : List String → String → String
  | [], _ => "review"
  | label :: rest, lower => if isSubstr label lower then label else sevGo rest lower

/-- src/app.py `flag_severity`. -/
def flag_severity (flag_text : String) : String :=
  sevGo severityLabels (lowerStr flag_text)

/-- Python `re.sub(r"^flag\s*\d+\s*[—|-]\s*", "", text, flags=IGNORECASE)`:
    the repetitions have disjoint follow sets, so the match is deterministic. -/
def dropFlagNum (s : String) : String :=
  match dropCI ("flag".toList) s.toList with
  | none => s
  | some r1 =>
    let r2 := r1.dropWhile Char.isWhitespace
    if (r2.takeWhile Char.isDigit).isEmpty then s
    else
      match (r2.dropWhile Char.isDigit).dropWhile Char.isWhitespace with
      | c :: r4 =>
        if c == '—' || c == '|' || c == '-' then String.mk (r4.dropWhile Char.isWhitespace) else s
      | [] => s

/-- Python `re.sub(r"^\[[A-Z\s]+\]\s*", "", text)`: a leading bracket, a
    nonempty run of uppercase letters and whitespace, a closing bracket, then
    trailing whitespace. -/
def dropBracketTag (s : String) : String :=
  match s.toList with
  | '[' :: rest =>
    let run := rest.takeWhile (fun c => c.isUpper || c.isWhitespace)
    if run.isEmpty then s
    else
      match rest.dropWhile (fun c => c.isUpper || c.isWhitespace) with
      | ']' :: r2 => String.mk (r2.dropWhile Char.isWhitespace)
      | _ => s
  | _ => s

/-- Python `re.sub(r"^(critical|...|worth asking)\s*[|—:-]\s*", "", text,
    flags=IGNORECASE)`: the alternatives are tried in order (no label is a
    prefix of another, so at most one literal can match). -/
def dropSeverityTag : List String → String → String
  | [], s => s
  | label :: rest, s =>
    match dropCI label.toList s.toList with
    | some r1 =>
      (match r1.dropWhile Char.isWhitespace with
       | c :: r3 =>
         if c == '|' || c == '—' || c == ':' || c == '-' then
           String.mk (r3.dropWhile Char.isWhitespace)
         else dropSeverityTag rest s
       | [] => dropSeverityTag rest s)
    | none => dropSeverityTag rest s

/-- Python `re.sub(r"\s+", " ", text)`: collapse each whitespace run to a
    single space.  The flag records whether the previous character was
    whitespace (i.e. whether we are inside a run). -/
def collapseWsAux : Bool → List Char → List Char
  | _, [] => []
  | prevWs, c :: rest =>
    if c.isWhitespace then
      (if prevWs then collapseWsAux true rest else ' ' :: collapseWsAux true rest)
    else c :: collapseWsAux false rest

/-- Python `re.split(r"(?<=[.!?])\s+", text)[0]`: the text up to (excluding)
    the first whitespace character preceded by sentence punctuation. -/
def firstSentence : List Char → List Char
  | [] => []
  | [c] => [c]
  | c :: d :: rest =>
    if (c == '.' || c == '!' || c == '?') && d.isWhitespace then [c]
    else c :: firstSentence (d :: rest)

/-- Python str.split(): whitespace-separated words, no empties.  The first
    argument accumulates the current word (reversed). -/
def wordsAux : List Char → List Char → List String
  | acc, [] => if acc.isEmpty then [] else [String.mk acc.reverse]
  | acc, c :: rest =>
    if c.isWhitespace then
      (if acc.isEmpty then wordsAux [] rest else String.mk acc.reverse :: wordsAux [] rest)
    else wordsAux (c :: acc) rest

def wordsOf (s : String) : List String := wordsAux [] s.toList

/-- The title computed by `summarize_flag` before the final
    `title or "Billing issue needs review"` default. -/
def titleOf (flag_text : String) : String :=
  let text1 := strip (stripBullet flag_text)
  let text2 := dropFlagNum text1
  let text3 := dropBracketTag text2
  let text4 := dropSeverityTag severityLabels text3
  let text5 := strip (String.mk (collapseWsAux false text4.toList))
  let title1 :=
    if text5.toList.contains ':' then
      strip (String.mk (text5.toList.takeWhile (fun c => c != ':')))
    else strip (String.mk (firstSentence text5.toList))
  let title2 := stripDashSpace (dropBracketTag title1)
  let ws := wordsOf title2
  if ws.length > 9 then String.intercalate " " (ws.take 9) ++ "..." else title2

/-- src/app.py `summarize_flag`: Python `title or default` returns the default
    exactly when the title is the empty string. -/
def summarize_flag (flag_text : String) : String :=
  let title := titleOf flag_text
  if title = "" then "Billing issue needs review" else title

/-! ### Helper lemmas -/

theorem parseCleaned_nonneg (l : List Char) (q : ℚ) (h : parseCleaned l = some q) : 0 ≤ q := by
  unfold parseCleaned at h
  split at h
  · simp at h
  · split at h
    · rw [Option.some.injEq] at h
      subst h
      positivity
    · rw [Option.some.injEq] at h
      subst h
      positivity

theorem extract_money_nonneg (s : String) : 0 ≤ extract_money s := by
  unfold extract_money
  split
  · exact le_refl 0
  · cases hg : moneyGroup s.toList with
    | none => simp
    | some g =>
      cases hp : parseCleaned (g.filter (fun c => c != ',')) with
      | none => simp [hp]
      | some q => simpa [hp] using parseCleaned_nonneg _ _ hp

theorem get_appendTo (s : SectionSet) (n m : SName) (l : String) :
    (s.appendTo n l).get m = if m = n then s.get m ++ [l] else s.get m := by
  cases n <;> cases m <;> simp [SectionSet.appendTo, SectionSet.get]

theorem segGo_get (lines : List String) : ∀ (cur : Option SName) (acc : SectionSet) (n : SName),
    (segGo lines cur acc).get n
      = acc.get n ++ (annotate cur lines).filterMap
          (fun p => if p.1 = some n ∧ p.2 ≠ "" then some p.2 else none) := by
  induction lines with
  | nil => intro cur acc n; simp [segGo, annotate]
  | cons line rest ih =>
    intro cur acc n
    simp only [segGo, annotate]
    cases h : toSName (upperStr (rstripColons (strip line))) with
    | some m => simp [ih]
    | none =>
      cases cur with
      | none => simp [ih]
      | some k =>
        by_cases hs : strip line = ""
        · simp [ih, hs]
        · by_cases hk : k = n
          · subst hk
            simp [ih, hs, get_appendTo]
          · simp [ih, hs, hk, get_appendTo, Ne.symm hk]

theorem annotate_tag (lines : List String) : ∀ (cur : Option SName) (p : Option SName × String),
    p ∈ annotate cur lines → toSName (upperStr (rstripColons p.2)) = none := by
  induction lines with
  | nil => intro cur p hp; simp [annotate] at hp
  | cons line rest ih =>
    intro cur p hp
    cases h : toSName (upperStr (rstripColons (strip line))) with
    | some m =>
      simp only [annotate, h] at hp
      exact ih _ _ hp
    | none =>
      simp only [annotate, h] at hp
      rcases List.mem_cons.mp hp with rfl | hmem
      · exact h
      · exact ih _ _ hmem

theorem any_perm {α : Type} {l1 l2 : List α} (h : List.Perm l1 l2) (p : α → Bool) :
    l1.any p = l2.any p := by
  cases ha : l1.any p with
  | true =>
    obtain ⟨x, hx, hpx⟩ := List.any_eq_true.mp ha
    exact (List.any_eq_true.mpr ⟨x, h.mem_iff.mp hx, hpx⟩).symm
  | false =>
    cases hb : l2.any p with
    | true =>
      obtain ⟨x, hx, hpx⟩ := List.any_eq_true.mp hb
      have hcontra : l1.any p = true := List.any_eq_true.mpr ⟨x, h.mem_iff.mpr hx, hpx⟩
      rw [ha] at hcontra
      exact hcontra
    | false => rfl

theorem find_concat {α : Type} (p : α → Bool) (l : List α) (a : α) :
    (l ++ [a]).find? p
      = ((l.find? p).orElse (fun _ => if p a then some a else none)) := by
  induction l with
  | nil => cases h : p a <;> simp [List.find?, h]
  | cons b bs ih => cases hb : p b <;> simp [List.find?, hb, ih]

theorem foldl_last_update {σ : Type} (upd : σ → String → σ) (g : σ → ℚ)
    (cond : String → Bool) (f : String → ℚ)
    (hset : ∀ st a, cond a = true → g (upd st a) = f a)
    (hkeep : ∀ st a, cond a = false → g (upd st a) = g st) :
    ∀ (lines : List String) (st : σ),
      g (List.foldl upd st lines) = ((lines.reverse.find? cond).map f).getD (g st) := by
  intro lines
  induction lines with
  | nil => intro st; simp
  | cons a rest ih =>
    intro st
    rw [List.foldl_cons, ih, List.reverse_cons, find_concat]
    cases h : rest.reverse.find? cond with
    | some x => simp [h]
    | none =>
      cases hc : cond a with
      | true => simp [h, hc, hset st a hc]
      | false => simp [h, hc, hkeep st a hc]

theorem sevGo_eq_find (labels : List String) (lower : String) :
    sevGo labels lower = (labels.find? (fun label => isSubstr label lower)).getD "review" := by
  induction labels with
  | nil => rfl
  | cons label rest ih =>
    cases h : isSubstr label lower <;> simp [sevGo, List.find?, h, ih]

theorem parse_itemized_eq_map (lines : List String) :
    parse_itemized_lines lines = lines.map itemRow := by
  induction lines with
  | nil => rfl
  | cons l rest ih => simp [parse_itemized_lines, ih]

/-! ### Claim theorems -/

/-- Claim C1: for every SectionSet and every list of local heuristic flag
    strings, `compute_risk_score` returns an integer in the closed interval
    [5, 95]; in particular a negative raw sum clamps to 5 and a raw sum above
    95 clamps to 95. -/
theorem C1_risk_score_bounds (sections : SectionSet) (local_flags : List String) :
    (5 ≤ compute_risk_score sections local_flags
      ∧ compute_risk_score sections local_flags ≤ 95)
  ∧ compute_risk_score { emptySections with SUMMARY := ["mostly clean"] } [] = 5
  ∧ compute_risk_score { emptySections with
      FLAGS := ["critical a", "critical b", "critical c", "critical d", "critical e"] } [] = 95 := by
  refine ⟨⟨le_max_left _ _, max_le (by norm_num) (min_le_right _ _)⟩, by decide, by decide⟩

/-- Claim C4: `extract_money` is total with a non-negative (rational-valued)
    result; when no money-shaped run exists, or the matched run fails to
    parse, it returns 0; and `extract_money "Total billed: $4,000" = 4000`. -/
theorem C4_extract_money_safe (s : String) :
    0 ≤ extract_money s
  ∧ (moneyGroup s.toList = none → extract_money s = 0)
  ∧ extract_money "Total billed: $4,000" = 4000
  ∧ extract_money "no numbers here" = 0
  ∧ extract_money ",,," = 0 := by
  refine ⟨extract_money_nonneg s, ?_, by decide, by decide, by decide⟩
  intro h
  unfold extract_money
  split
  · rfl
  · rw [h]

/-- Claim C4 witness: the no-match implication applied at a concrete string. -/
theorem C4_witness : moneyGroup ("abc".toList) = none ∧ extract_money "abc" = 0 :=
  ⟨by decide, (C4_extract_money_safe "abc").2.1 (by decide)⟩

/-- Claim C5: `parse_itemized_lines` keeps exactly one row per input line;
    lines splitting into at least three trimmed pipe-delimited parts yield the
    first three parts, every other line yields the fixed fallback triple. -/
theorem C5_itemized_rows (lines : List String) :
    (parse_itemized_lines lines).length = lines.length
  ∧ parse_itemized_lines lines = lines.map itemRow
  ∧ (∀ line : String, ((splitPipe (stripBullet line)).map strip).length ≥ 3 →
      itemRow line = (((splitPipe (stripBullet line)).map strip).getD 0 "",
        ((splitPipe (stripBullet line)).map strip).getD 1 "",
        ((splitPipe (stripBullet line)).map strip).getD 2 ""))
  ∧ (∀ line : String, ((splitPipe (stripBullet line)).map strip).length < 3 →
      itemRow line = ("Charge", "See note", stripBullet line)) := by
  refine ⟨?_, parse_itemized_eq_map lines, ?_, ?_⟩
  · rw [parse_itemized_eq_map]
    exact List.length_map lines itemRow
  · intro line h
    simp only [itemRow]
    rw [if_pos h]
  · intro line h
    simp only [itemRow]
    rw [if_neg (by omega)]

/-- Claim C5 witness: both branches applied at concrete lines. -/
theorem C5_witness :
    itemRow "- Lab | $650 | panel" = ("Lab", "$650", "panel")
  ∧ itemRow "just a note" = ("Charge", "See note", "just a note") :=
  ⟨(C5_itemized_rows []).2.2.1 "- Lab | $650 | panel" (by decide),
   (C5_itemized_rows []).2.2.2 "just a note" (by decide)⟩

/-- Claim C6: `flag_severity` lower-cases its input and returns the first
    keyword of the ordered severity list that occurs in it, and "review" when
    none occurs; with the two concrete examples of the spec. -/
theorem C6_flag_severity_first_match :
    (∀ s : String, flag_severity s
        = (severityLabels.find? (fun label => isSubstr label (lowerStr s))).getD "review")
  ∧ flag_severity "CRITICAL: Duplicate lab panel charge of $650 detected..." = "critical"
  ∧ flag_severity "no keyword here" = "review"
  ∧ (∀ s : String,
      severityLabels.all (fun label => !(isSubstr label (lowerStr s))) = true →
        flag_severity s = "review") := by
  refine ⟨fun s => sevGo_eq_find severityLabels (lowerStr s), by decide, by decide, ?_⟩
  intro s hall
  unfold flag_severity
  rw [sevGo_eq_find]
  have hnone : severityLabels.find? (fun label => isSubstr label (lowerStr s)) = none := by
    rw [List.find?_eq_none]
    intro x hx
    simpa using List.all_eq_true.mp hall x hx
  rw [hnone]
  rfl

/-- Claim C6 witness: the no-keyword default applied at a concrete string. -/
theorem C6_witness : flag_severity "no keyword here" = "review" :=
  C6_flag_severity_first_match.2.2.2 "no keyword here" (by decide)

/-- Claim C7 counterexample: two SectionSets identical except for SUMMARY,
    where only the first SUMMARY contains "mostly clean", whose pre-clamp
    totals do NOT differ by 12 (the second contains "mostly reasonable",
    which triggers the same subtraction). -/
theorem C7_counterexample :
    isSubstr "mostly clean"
      (lowerStr (String.intercalate " " ["This bill looks mostly clean."])) = true
  ∧ isSubstr "mostly clean"
      (lowerStr (String.intercalate " " ["Mostly reasonable overall."])) = false
  ∧ ¬ (compute_risk_raw { emptySections with SUMMARY := ["This bill looks mostly clean."] } []
        = compute_risk_raw { emptySections with SUMMARY := ["Mostly reasonable overall."] } [] - 12) := by
  decide

/-- Claim C7 (amended): if the first lowercased joined SUMMARY contains
    "mostly clean" and the second contains neither "mostly clean" nor
    "mostly reasonable", the pre-clamp total of the first is exactly 12
    lower, all other inputs equal. -/
theorem C7_amended_summary_discount (base : SectionSet) (sum1 sum2 fl : List String)
    (h1 : isSubstr "mostly clean" (lowerStr (String.intercalate " " sum1)) = true)
    (h2 : isSubstr "mostly clean" (lowerStr (String.intercalate " " sum2)) = false)
    (h3 : isSubstr "mostly reasonable" (lowerStr (String.intercalate " " sum2)) = false) :
    compute_risk_raw { base with SUMMARY := sum1 } fl
      = compute_risk_raw { base with SUMMARY := sum2 } fl - 12 := by
  unfold compute_risk_raw summary_component
  simp only [h1, h2, h3]
  simp
  ring

/-- Claim C7 witness: the amended statement applied at concrete inputs. -/
theorem C7_witness :
    compute_risk_raw { emptySections with SUMMARY := ["mostly clean"] } []
      = compute_risk_raw { emptySections with SUMMARY := ["all good"] } [] - 12 :=
  C7_amended_summary_discount emptySections ["mostly clean"] ["all good"] []
    (by decide) (by decide) (by decide)

/-- Claim C8 counterexample: permuting the lines of the INSURANCE section
    changes the risk score (the "potential ... $" search is position
    dependent), so `compute_risk_score` is not order-independent. -/
theorem C8_counterexample :
    List.Perm ["potential overcharge", "$2,000"] (["$2,000", "potential overcharge"] : List String)
  ∧ compute_risk_score { emptySections with INSURANCE := ["potential overcharge", "$2,000"] } [] = 15
  ∧ compute_risk_score { emptySections with INSURANCE := ["$2,000", "potential overcharge"] } [] = 5 :=
  ⟨List.Perm.swap "$2,000" "potential overcharge" [], by decide, by decide⟩

/-- Claim C8 (amended): permuting the FLAGS lines and the local heuristic
    flag list leaves the risk score unchanged (INSURANCE and SUMMARY lines
    held fixed). -/
theorem C8_amended_flag_permutation (s : SectionSet) (flags2 fl fl2 : List String)
    (hp : List.Perm s.FLAGS flags2) (hq : List.Perm fl fl2) :
    compute_risk_score { s with FLAGS := flags2 } fl2 = compute_risk_score s fl := by
  have e1 : (flags2.map severityPoints).sum = (s.FLAGS.map severityPoints).sum :=
    ((hp.map severityPoints).sum_eq).symm
  have e2 : (fl2.length : ℤ) = (fl.length : ℤ) := by rw [hq.length_eq]
  have e3 := any_perm ((hp.append hq).symm) (fun f => isSubstr "duplicate" (lowerStr f))
  have e4 := any_perm ((hp.append hq).symm)
    (fun f => isSubstr "balance bill" (lowerStr f) || isSubstr "denied" (lowerStr f))
  unfold compute_risk_score compute_risk_raw severity_component local_flag_component
    duplicate_component denial_component
  rw [e1, e2, e3, e4]

/-- Claim C8 witness: the amended statement applied at a concrete swap. -/
theorem C8_witness :
    compute_risk_score { emptySections with FLAGS := ["critical: dup", "low: copay"] } ["x"]
      = compute_risk_score { emptySections with FLAGS := ["low: copay", "critical: dup"] } ["x"] :=
  C8_amended_flag_permutation { emptySections with FLAGS := ["low: copay", "critical: dup"] }
    ["critical: dup", "low: copay"] ["x"] ["x"]
    (List.Perm.swap "critical: dup" "low: copay" []) (List.Perm.refl ["x"])

unseal Rat.add Rat.mul Rat.inv in
/-- Claim C2 counterexample: a bill text that contains the three quoted lines
    but also a later "Total billed" line; the estimator returns 1010 with two
    flags, not 1160 with three, so the claim does not hold for every text
    containing the three lines. -/
theorem C2_counterexample :
    "Lab panel: $650 ×2" ∈ splitlines
      "Lab panel: $650 ×2\nFacility fee: $1,800\nTotal billed: $4,000\nTotal billed: $40"
  ∧ "Facility fee: $1,800" ∈ splitlines
      "Lab panel: $650 ×2\nFacility fee: $1,800\nTotal billed: $4,000\nTotal billed: $40"
  ∧ "Total billed: $4,000" ∈ splitlines
      "Lab panel: $650 ×2\nFacility fee: $1,800\nTotal billed: $4,000\nTotal billed: $40"
  ∧ estimate_local_risk
      "Lab panel: $650 ×2\nFacility fee: $1,800\nTotal billed: $4,000\nTotal billed: $40"
      ≠ (1160, [dupFlag, feeFlag, auditFlag]) := by
  refine ⟨by decide, by decide, by decide, by decide⟩

unseal Rat.add Rat.mul Rat.inv in
/-- Claim C2 (amended): for the bill text consisting exactly of the lines
    "Lab panel: $650 ×2", "Facility fee: $1,800" and "Total billed: $4,000",
    the estimator returns 1160 = 650 + min(400, 1800/5) + 150 together with
    the three flags in the fixed check order. -/
theorem C2_amended_local_estimate :
    estimate_local_risk "Lab panel: $650 ×2\nFacility fee: $1,800\nTotal billed: $4,000"
      = (650 + min 400 (1800 * (1/5 : ℚ)) + 150, [dupFlag, feeFlag, auditFlag])
  ∧ (650 + min 400 (1800 * (1/5 : ℚ)) + 150 : ℚ) = 1160 := by
  refine ⟨by decide, by norm_num⟩

/-- Claim C9: `summarize_flag` never returns the empty string; whenever the
    cleaning pipeline leaves an empty title it returns the fixed fallback. -/
theorem C9_summarize_flag_nonempty (s : String) :
    summarize_flag s ≠ ""
  ∧ (titleOf s = "" → summarize_flag s = "Billing issue needs review")
  ∧ summarize_flag "" = "Billing issue needs review"
  ∧ summarize_flag "- " = "Billing issue needs review" := by
  refine ⟨?_, ?_, by decide, by decide⟩
  · show (if titleOf s = "" then "Billing issue needs review" else titleOf s) ≠ ""
    by_cases h : titleOf s = ""
    · rw [if_pos h]; decide
    · rw [if_neg h]; exact h
  · intro h
    show (if titleOf s = "" then "Billing issue needs review" else titleOf s)
        = "Billing issue needs review"
    rw [if_pos h]

/-- Claim C9 witness: the empty-title fallback applied at a bullet-only line. -/
theorem C9_witness : summarize_flag "- " = "Billing issue needs review" :=
  (C9_summarize_flag_nonempty "- ").2.1 (by decide)

/-- Claim C10: in `parse_bill_input` and `find_money_in_lines` every key of
    the returned mapping holds the amount extracted from the LAST line
    matching that key's phrase test (the first match of the reversed line
    list), so later lines overwrite earlier ones; with a concrete two-line
    example. -/
theorem C10_last_line_overwrites (raw : String) (lines : List String) :
    ((parse_bill_input raw).total_billed
       = (((splitlines raw).reverse.find?
            (fun l => isSubstr "total billed" (lowerStr l))).map extract_money).getD 0)
  ∧ ((parse_bill_input raw).insurance_paid
       = (((splitlines raw).reverse.find?
            (fun l => !(isSubstr "total billed" (lowerStr l))
              && isSubstr "insurance paid" (lowerStr l))).map extract_money).getD 0)
  ∧ ((parse_bill_input raw).patient_responsibility
       = (((splitlines raw).reverse.find?
            (fun l => !(isSubstr "total billed" (lowerStr l))
              && !(isSubstr "insurance paid" (lowerStr l))
              && (isSubstr "patient responsibility" (lowerStr l)
                  || isSubstr "patient owes" (lowerStr l)))).map extract_money).getD 0)
  ∧ ((find_money_in_lines lines).total_billed
       = ((lines.reverse.find?
            (fun l => isSubstr "total billed" (lowerStr l))).map extract_money).getD 0)
  ∧ ((find_money_in_lines lines).insurance_paid
       = ((lines.reverse.find?
            (fun l => !(isSubstr "total billed" (lowerStr l))
              && isSubstr "insurance paid" (lowerStr l))).map extract_money).getD 0)
  ∧ ((find_money_in_lines lines).patient_owes
       = ((lines.reverse.find?
            (fun l => !(isSubstr "total billed" (lowerStr l))
              && !(isSubstr "insurance paid" (lowerStr l))
              && isSubstr "patient owes" (lowerStr l))).map extract_money).getD 0)
  ∧ ((find_money_in_lines lines).potential_savings
       = ((lines.reverse.find?
            (fun l => !(isSubstr "total billed" (lowerStr l))
              && !(isSubstr "insurance paid" (lowerStr l))
              && !(isSubstr "patient owes" (lowerStr l))
              && (isSubstr "potential overcharge" (lowerStr l)
                  || isSubstr "savings opportunity" (lowerStr l)))).map extract_money).getD 0)
  ∧ (parse_bill_input "Total billed: $100\nTotal billed: $200").total_billed = 200 := by
  refine ⟨?_, ?_, ?_, ?_, ?_, ?_, ?_, by decide⟩
  · exact foldl_last_update billUpdate (fun t => t.total_billed)
      (fun l => isSubstr "total billed" (lowerStr l)) extract_money
      (by intro st a h; unfold billUpdate; split_ifs <;> rfl)
      (by intro st a h; unfold billUpdate; split_ifs <;> first | rfl | simp_all)
      (splitlines raw) ⟨0, 0, 0⟩
  · exact foldl_last_update billUpdate (fun t => t.insurance_paid)
      (fun l => !(isSubstr "total billed" (lowerStr l))
        && isSubstr "insurance paid" (lowerStr l)) extract_money
      (by intro st a h; unfold billUpdate; split_ifs <;> first | rfl | simp_all)
      (by intro st a h; unfold billUpdate; split_ifs <;> first | rfl | simp_all)
      (splitlines raw) ⟨0, 0, 0⟩
  · exact foldl_last_update billUpdate (fun t => t.patient_responsibility)
      (fun l => !(isSubstr "total billed" (lowerStr l))
        && !(isSubstr "insurance paid" (lowerStr l))
        && (isSubstr "patient responsibility" (lowerStr l)
            || isSubstr "patient owes" (lowerStr l))) extract_money
      (by intro st a h; unfold billUpdate; split_ifs <;> first | rfl | simp_all)
      (by intro st a h; unfold billUpdate; split_ifs <;> first | rfl | simp_all)
      (splitlines raw) ⟨0, 0, 0⟩
  · exact foldl_last_update metricsUpdate (fun t => t.total_billed)
      (fun l => isSubstr "total billed" (lowerStr l)) extract_money
      (by intro st a h; unfold metricsUpdate; split_ifs <;> rfl)
      (by intro st a h; unfold metricsUpdate; split_ifs <;> first | rfl | simp_all)
      lines ⟨0, 0, 0, 0⟩
  · exact foldl_last_update metricsUpdate (fun t => t.insurance_paid)
      (fun l => !(isSubstr "total billed" (lowerStr l))
        && isSubstr "insurance paid" (lowerStr l)) extract_money
      (by intro st a h; unfold metricsUpdate; split_ifs <;> first | rfl | simp_all)
      (by intro st a h; unfold metricsUpdate; split_ifs <;> first | rfl | simp_all)
      lines ⟨0, 0, 0, 0⟩
  · exact foldl_last_update metricsUpdate (fun t => t.patient_owes)
      (fun l => !(isSubstr "total billed" (lowerStr l))
        && !(isSubstr "insurance paid" (lowerStr l))
        && isSubstr "patient owes" (lowerStr l)) extract_money
      (by intro st a h; unfold metricsUpdate; split_ifs <;> first | rfl | simp_all)
      (by intro st a h; unfold metricsUpdate; split_ifs <;> first | rfl | simp_all)
      lines ⟨0, 0, 0, 0⟩
  · exact foldl_last_update metricsUpdate (fun t => t.potential_savings)
      (fun l => !(isSubstr "total billed" (lowerStr l))
        && !(isSubstr "insurance paid" (lowerStr l))
        && !(isSubstr "patient owes" (lowerStr l))
        && (isSubstr "potential overcharge" (lowerStr l)
            || isSubstr "savings opportunity" (lowerStr l))) extract_money
      (by intro st a h; unfold metricsUpdate; split_ifs <;> first | rfl | simp_all)
      (by intro st a h; unfold metricsUpdate; split_ifs <;> first | rfl | simp_all)
      lines ⟨0, 0, 0, 0⟩

/-- Claim C3: the Section Segmenter returns a mapping with exactly the eight
    fixed keys; each section's content is exactly the stripped non-blank
    non-heading lines tagged with that section's cursor, in input order
    (lines before the first recognized heading carry no cursor and are
    dropped); and a string whose trimmed, colon-stripped, uppercased form is
    a recognized name never appears as content. -/
theorem C3_section_segmenter (raw : String) :
    ((parse_structured_sections raw).lineLists.map Prod.fst = sectionNames)
  ∧ (∀ n : SName, (parse_structured_sections raw).get n = specContent n (splitlines raw))
  ∧ (∀ n : SName, ∀ c ∈ (parse_structured_sections raw).get n,
      c ≠ "" ∧ toSName (upperStr (rstripColons c)) = none) := by
  refine ⟨rfl, ?_, ?_⟩
  · intro n
    unfold parse_structured_sections specContent
    rw [segGo_get]
    cases n <;> rfl
  · intro n c hc
    unfold parse_structured_sections at hc
    rw [segGo_get] at hc
    rw [List.mem_append] at hc
    rcases hc with hc | hc
    · exfalso
      cases n <;> simp [emptySections, SectionSet.get] at hc
    · obtain ⟨p, hp, hcond⟩ := List.mem_filterMap.mp hc
      by_cases hq : p.1 = some n ∧ p.2 ≠ ""
      · rw [if_pos hq] at hcond
        obtain rfl : p.2 = c := Option.some.inj hcond
        exact ⟨hq.2, annotate_tag _ _ _ hp⟩
      · rw [if_neg hq] at hcond
        cases hcond

/-- Claim C3 witness: the content invariant applied at a concrete narrative. -/
theorem C3_witness :
    ("CRITICAL: dup" : String) ≠ ""
  ∧ toSName (upperStr (rstripColons "CRITICAL: dup")) = none :=
  (C3_section_segmenter "FLAGS\nCRITICAL: dup").2.2 SName.FLAGS "CRITICAL: dup" (by decide)

end BillGuard
